import Mathlib

/-!
Verification of the SizeSync fit-scoring engine.

The engine lives in the Recommendations page module: a measurement
classifier (`calculateFitStatus` with the `FABRIC_EASE_CONFIGS` table),
an aggregator (`deriveActualConfidence`, `overallFit`), key
normalization for size-chart keys, and the ±5% display range.

Numbers are embedded as rationals (ℚ); `parseFloat((x).toFixed(1))` is
embedded as rounding to one decimal place with ties toward +∞, which is
the rounding `toFixed` specifies. Statuses stay strings, as in the
source. JavaScript `string.toLowerCase()` / `string.includes(...)` are
embedded as `jsToLower` / `jsIncludes` below.
-/

namespace SizeSync

/-- One fabric tolerance band, fields in the source's declaration order:
`perfectMin`, `perfectMax`, `tightThreshold`, `looseThreshold`. -/
structure FabricEaseConfig where
  perfectMin : ℚ
  perfectMax : ℚ
  tightThreshold : ℚ
  looseThreshold : ℚ
deriving DecidableEq, Repr

/-- The `rigid` entry of `FABRIC_EASE_CONFIGS`:
perfectMin 2, perfectMax 4, tightThreshold 0, looseThreshold 6. -/
def rigidConfig : FabricEaseConfig := ⟨2, 4, 0, 6⟩

/-- The `normal` entry of `FABRIC_EASE_CONFIGS`:
perfectMin -1.5, perfectMax 2, tightThreshold -3, looseThreshold 4. -/
def normalConfig : FabricEaseConfig := ⟨-1.5, 2, -3, 4⟩

/-- The `stretchy` entry of `FABRIC_EASE_CONFIGS`:
perfectMin -4, perfectMax 1, tightThreshold -6, looseThreshold 3. -/
def stretchyConfig : FabricEaseConfig := ⟨-4, 1, -6, 3⟩

/-- The `FABRIC_EASE_CONFIGS` record, as a key/value table with exactly
the three keys of the source object literal. -/
def FABRIC_EASE_CONFIGS : List (String × FabricEaseConfig) :=
  [("rigid", rigidConfig), ("normal", normalConfig), ("stretchy", stretchyConfig)]

/-- Embeds `FABRIC_EASE_CONFIGS[fabricType] || FABRIC_EASE_CONFIGS.normal`:
look the fabric type up in the table, falling back to the normal band
when the key is absent. -/
def getFabricConfig (fabricType : String) : FabricEaseConfig :=
  (FABRIC_EASE_CONFIGS.lookup fabricType).getD normalConfig

/-- Embeds `Math.floor` on a rational. -/
def jsFloor (q : ℚ) : ℤ := q.floor

/-- Embeds `Math.ceil` on a rational. -/
def jsCeil (q : ℚ) : ℤ := q.ceil

/-- Embeds `parseFloat(x.toFixed(1))`: round to one decimal place, ties toward
the larger value, as `Number.prototype.toFixed` specifies. -/
def round1 (q : ℚ) : ℚ := ((q * 10 + 1 / 2).floor : ℚ) / 10

/-- Result record of `calculateFitStatus`: `{ status, difference }`. -/
structure FitResult where
  status : String
  difference : ℚ
deriving DecidableEq, Repr

/-- Body of `calculateFitStatus` once the band `config` has been
resolved: `difference = parseFloat((chartValue - userValue).toFixed(1))`,
then the three-way decision on `perfectMin`/`perfectMax` with the
trailing `"good"` fallback. -/
def calculateFitStatusCfg (userValue chartValue : ℚ)
    (config : FabricEaseConfig) : FitResult :=
  let difference := round1 (chartValue - userValue)
  if config.perfectMin ≤ difference ∧ difference ≤ config.perfectMax then
    ⟨"perfect", difference⟩
  else if difference < config.perfectMin then
    ⟨"tight", difference⟩
  else if difference > config.perfectMax then
    ⟨"loose", difference⟩
  else
    ⟨"good", difference⟩

/-- Embeds `calculateFitStatus(userValue, chartValue, fabricType)`. -/
def calculateFitStatus (userValue chartValue : ℚ)
    (fabricType : String) : FitResult :=
  calculateFitStatusCfg userValue chartValue (getFabricConfig fabricType)

/-- JavaScript `s.toLowerCase()`, per-character ASCII lowering. -/
def jsToLower (s : String) : String := String.mk (s.toList.map Char.toLower)

/-- Helper for `jsIncludes`: does `pat` occur contiguously in the list? -/
def jsIncludesAux (pat : List Char) : List Char → Bool
  | [] => pat.isPrefixOf []
  | c :: rest => pat.isPrefixOf (c :: rest) || jsIncludesAux pat rest

/-- JavaScript `s.includes(pat)`: substring containment. -/
def jsIncludes (s pat : String) : Bool := jsIncludesAux pat.toList s.toList

/-- Embeds `status.charAt(0).toUpperCase() + status.slice(1)`. -/
def capitalize (s : String) : String :=
  match s.toList with
  | [] => ""
  | c :: rest => String.mk (c.toUpper :: rest)

/-- One entry of the `measurementComparisons` array (the display-only
`label` field, built from translated text, is omitted). -/
structure MeasurementComparison where
  key : String
  userValue : ℚ
  chartValue : ℚ
  difference : ℚ
  status : String
deriving DecidableEq, Repr

/-- Embeds `deriveActualConfidence`: empty comparisons fall back to the AI
confidence; otherwise any tight comparison wins, then any loose one,
then all-perfect, then `"Good"`. The source tests each record with
`m.status.toLowerCase().includes(...)`. -/
def deriveActualConfidence (measurementComparisons : List MeasurementComparison)
    (fallbackConfidence : String) : String :=
  if measurementComparisons.length = 0 then fallbackConfidence
  else
    let hasTight := measurementComparisons.any fun m =>
      jsIncludes (jsToLower m.status) "tight"
    let hasLoose := measurementComparisons.any fun m =>
      jsIncludes (jsToLower m.status) "loose"
    let allPerfect := measurementComparisons.all fun m =>
      jsIncludes (jsToLower m.status) "perfect"
    if hasTight then "Tight"
    else if hasLoose then "Loose"
    else if allPerfect then "Perfect"
    else "Good"

/-- One entry of the `fitDetails` array of the size-comparison view
(the display-only `label` field is omitted). -/
structure FitDetail where
  key : String
  userValue : ℚ
  chartValue : ℚ
  status : String
deriving DecidableEq, Repr

/-- The `overallFit` conditional of the size-comparison view:
all-perfect first, then any-tight, then any-loose, then `"good"`;
`"unknown"` for an empty detail list. -/
def overallFit (fitDetails : List FitDetail) : String :=
  if fitDetails.length > 0 then
    if fitDetails.all (fun f => f.status == "perfect") then "perfect"
    else if fitDetails.any (fun f => f.status == "tight") then "tight"
    else if fitDetails.any (fun f => f.status == "loose") then "loose"
    else "good"
  else "unknown"

/-- Embeds `key.replace(/_./g, (match) => match.charAt(1).toUpperCase())`:
each underscore followed by a character is replaced by that character
uppercased; a trailing lone underscore is not matched. -/
def replaceUnderscoreMatches : List Char → List Char
  | [] => []
  | [c] => [c]
  | c1 :: c2 :: rest =>
    if c1 = '_' then c2.toUpper :: replaceUnderscoreMatches rest
    else c1 :: replaceUnderscoreMatches (c2 :: rest)

/-- The `userKey` computation: keys containing `"_"` are rewritten to
the camel-cased profile key, all others are used as-is. -/
def userKeyFor (key : String) : String :=
  if jsIncludes key "_" then String.mk (replaceUnderscoreMatches key.toList)
  else key

/-- The `Object.entries(recommendedSizeMeasurements).forEach` loop that
builds `measurementComparisons`. A profile is a partial map from field
name to numeric value (`none` models an absent or non-numeric field);
a chart entry value of `none` models a non-numeric chart value. -/
def buildMeasurementComparisons (profile : String → Option ℚ)
    (entries : List (String × Option ℚ)) (fabricType : String) :
    List MeasurementComparison :=
  entries.filterMap fun e =>
    if e.1 = "size" then none
    else
      match e.2 with
      | none => none
      | some chartValue =>
        match profile (userKeyFor e.1) with
        | none => none
        | some userValue =>
          let r := calculateFitStatus userValue chartValue fabricType
          some ⟨e.1, userValue, chartValue, r.difference, capitalize r.status⟩

/-- Embeds `actualConfidence`: the derived confidence for a profile, a chart's
entry list for the recommended size, a fabric type and the AI fallback. -/
def actualConfidence (profile : String → Option ℚ)
    (entries : List (String × Option ℚ)) (fabricType : String)
    (fallbackConfidence : String) : String :=
  deriveActualConfidence
    (buildMeasurementComparisons profile entries fabricType) fallbackConfidence

/-- The displayed acceptable range for one detail:
`Math.floor(chartValue * 0.95)` to `Math.ceil(chartValue * 1.05)`. -/
def fitRangeText (chartValue : ℚ) : ℤ × ℤ :=
  (jsFloor (chartValue * (0.95 : ℚ)), jsCeil (chartValue * (1.05 : ℚ)))

/-- The function `Rat.floor` agrees with the mathematical floor. -/
theorem ratFloor_eq_floor (q : ℚ) : (q.floor : ℤ) = ⌊q⌋ := by
  rw [Rat.floor_def', ← Rat.floor_def]

theorem int_neg_ediv_of_not_dvd {a b : ℤ} (hb : 0 < b) (h : ¬ b ∣ a) :
    (-a) / b = -(a / b) - 1 := by
  have h0 : a % b ≠ 0 := fun hh => h (Int.dvd_of_emod_eq_zero hh)
  have h1 : 0 ≤ a % b := Int.emod_nonneg a (ne_of_gt hb)
  have h2 : a % b < b := Int.emod_lt_of_pos a hb
  have hadd := Int.ediv_add_emod a b
  have key : -a = (b - a % b) + b * (-(a / b) - 1) := by linarith
  rw [key, Int.add_mul_ediv_left _ _ (ne_of_gt hb),
    Int.ediv_eq_zero_of_lt (by omega) (by omega)]
  omega

/-- The function `Rat.ceil` agrees with the mathematical ceiling. -/
theorem ratCeil_eq_ceil (q : ℚ) : (q.ceil : ℤ) = ⌈q⌉ := by
  have hneg : ⌈q⌉ = -⌊-q⌋ := by
    rw [Int.floor_neg]; omega
  rw [hneg, ← ratFloor_eq_floor]
  show q.ceil = -(-q).floor
  unfold Rat.ceil Rat.floor
  simp only [Rat.neg_num, Rat.neg_den]
  by_cases hd : q.den = 1
  · simp [hd]
  · simp only [hd, if_false]
    have hbpos : (0 : ℤ) < (q.den : ℤ) := by
      exact_mod_cast q.den_pos
    have hnd : ¬ ((q.den : ℤ) ∣ q.num) := by
      intro hdvd
      have hd1 : q.den ∣ q.num.natAbs := Int.natCast_dvd.mp hdvd
      have hg : q.den ∣ Nat.gcd q.num.natAbs q.den := Nat.dvd_gcd hd1 dvd_rfl
      have hg1 : Nat.gcd q.num.natAbs q.den = 1 := q.reduced
      rw [hg1] at hg
      exact hd (Nat.dvd_one.mp hg)
    have := int_neg_ediv_of_not_dvd hbpos hnd
    omega

/-- The function `round1` in terms of the mathematical floor. -/
theorem round1_eq_floor (q : ℚ) : round1 q = (⌊q * 10 + 1 / 2⌋ : ℚ) / 10 := by
  rw [round1, ratFloor_eq_floor]

/-- The fabric lookup resolves to one of the three configured bands. -/
theorem getFabricConfig_cases (f : String) :
    getFabricConfig f = rigidConfig ∨ getFabricConfig f = normalConfig ∨
      getFabricConfig f = stretchyConfig := by
  rw [getFabricConfig, FABRIC_EASE_CONFIGS]
  by_cases h1 : f = "rigid"
  · simp [List.lookup, h1]
  · have e1 : (f == "rigid") = false := beq_eq_false_iff_ne.mpr h1
    by_cases h2 : f = "normal"
    · simp [List.lookup, e1, h2]
    · have e2 : (f == "normal") = false := beq_eq_false_iff_ne.mpr h2
      by_cases h3 : f = "stretchy"
      · simp [List.lookup, e1, e2, h3]
      · have e3 : (f == "stretchy") = false := beq_eq_false_iff_ne.mpr h3
        simp [List.lookup, e1, e2, e3]

/-- Every resolved band has `perfectMin ≤ perfectMax`. -/
theorem getFabricConfig_perfectMin_le (f : String) :
    (getFabricConfig f).perfectMin ≤ (getFabricConfig f).perfectMax := by
  obtain h | h | h := getFabricConfig_cases f <;> rw [h] <;>
    norm_num [rigidConfig, normalConfig, stretchyConfig]

/-- Case analysis of the classifier body for any band with
`perfectMin ≤ perfectMax`. -/
theorem calculateFitStatusCfg_spec (u c : ℚ) (cfg : FabricEaseConfig)
    (hle : cfg.perfectMin ≤ cfg.perfectMax) :
    (calculateFitStatusCfg u c cfg).difference = round1 (c - u) ∧
    ((calculateFitStatusCfg u c cfg).status = "perfect" ↔
      cfg.perfectMin ≤ round1 (c - u) ∧ round1 (c - u) ≤ cfg.perfectMax) ∧
    ((calculateFitStatusCfg u c cfg).status = "tight" ↔
      round1 (c - u) < cfg.perfectMin) ∧
    ((calculateFitStatusCfg u c cfg).status = "loose" ↔
      cfg.perfectMax < round1 (c - u)) := by
  unfold calculateFitStatusCfg
  dsimp only
  split_ifs with h1 h2 h3
  · exact ⟨rfl, ⟨fun _ => h1, fun _ => rfl⟩,
      ⟨fun h => absurd h (by simp), fun h => absurd h (by linarith [h1.1])⟩,
      ⟨fun h => absurd h (by simp), fun h => absurd h (by linarith [h1.2])⟩⟩
  · exact ⟨rfl,
      ⟨fun h => absurd h (by simp), fun h => absurd h2 (by linarith [h.1])⟩,
      ⟨fun _ => h2, fun _ => rfl⟩,
      ⟨fun h => absurd h (by simp), fun h => absurd h (by linarith)⟩⟩
  · exact ⟨rfl,
      ⟨fun h => absurd h (by simp), fun h => absurd h3 (by linarith [h.2])⟩,
      ⟨fun h => absurd h (by simp), fun h => absurd h h2⟩,
      ⟨fun _ => h3, fun _ => rfl⟩⟩
  · exact absurd ⟨le_of_not_lt h2, le_of_not_lt h3⟩ h1

/-- C1: the classifier computes `difference` as `chartValue − userValue`
rounded to one decimal place, classifies `perfect` exactly when the
rounded difference lies within `[perfectMin, perfectMax]` of the
resolved fabric band, `tight` exactly when it lies below `perfectMin`,
`loose` exactly when it lies above `perfectMax`, and the band's
`tightThreshold`/`looseThreshold` fields play no role in the result. -/
theorem C1_classifier_decision (u c : ℚ) (f : String) :
    (calculateFitStatus u c f).difference = round1 (c - u) ∧
    ((calculateFitStatus u c f).status = "perfect" ↔
      (getFabricConfig f).perfectMin ≤ round1 (c - u) ∧
        round1 (c - u) ≤ (getFabricConfig f).perfectMax) ∧
    ((calculateFitStatus u c f).status = "tight" ↔
      round1 (c - u) < (getFabricConfig f).perfectMin) ∧
    ((calculateFitStatus u c f).status = "loose" ↔
      (getFabricConfig f).perfectMax < round1 (c - u)) ∧
    (∀ tt lt : ℚ,
      calculateFitStatusCfg u c
        ⟨(getFabricConfig f).perfectMin, (getFabricConfig f).perfectMax,
          tt, lt⟩ = calculateFitStatus u c f) := by
  have hmain := calculateFitStatusCfg_spec u c (getFabricConfig f)
    (getFabricConfig_perfectMin_le f)
  exact ⟨hmain.1, hmain.2.1, hmain.2.2.1, hmain.2.2.2, fun tt lt => rfl⟩

/-- C3: deriving the overall confidence from an empty comparison list
returns the externally supplied fallback unchanged. -/
theorem C3_empty_returns_fallback (fallback : String) :
    deriveActualConfidence [] fallback = fallback := rfl

/-- C5: the configured bands are exactly rigid, normal and stretchy
with (tightThreshold, perfectMin, perfectMax, looseThreshold) equal to
(0, 2, 4, 6), (−3, −1.5, 2, 4) and (−6, −4, 1, 3) respectively, and
each satisfies tightThreshold ≤ perfectMin ≤ perfectMax ≤
looseThreshold. -/
theorem C5_band_ordering_invariant :
    FABRIC_EASE_CONFIGS =
      [("rigid", rigidConfig), ("normal", normalConfig),
        ("stretchy", stretchyConfig)] ∧
    rigidConfig = ⟨2, 4, 0, 6⟩ ∧
    normalConfig = ⟨-1.5, 2, -3, 4⟩ ∧
    stretchyConfig = ⟨-4, 1, -6, 3⟩ ∧
    (rigidConfig.tightThreshold ≤ rigidConfig.perfectMin ∧
      rigidConfig.perfectMin ≤ rigidConfig.perfectMax ∧
      rigidConfig.perfectMax ≤ rigidConfig.looseThreshold) ∧
    (normalConfig.tightThreshold ≤ normalConfig.perfectMin ∧
      normalConfig.perfectMin ≤ normalConfig.perfectMax ∧
      normalConfig.perfectMax ≤ normalConfig.looseThreshold) ∧
    (stretchyConfig.tightThreshold ≤ stretchyConfig.perfectMin ∧
      stretchyConfig.perfectMin ≤ stretchyConfig.perfectMax ∧
      stretchyConfig.perfectMax ≤ stretchyConfig.looseThreshold) := by
  refine ⟨rfl, ?_, ?_, ?_, ?_, ?_, ?_⟩ <;>
    norm_num [rigidConfig, normalConfig, stretchyConfig]

/-- C9: for every user value, chart value and fabric type the
classifier returns one of perfect, tight, loose; the trailing good
fallback branch is unreachable. -/
theorem C9_good_branch_unreachable (u c : ℚ) (f : String) :
    ((calculateFitStatus u c f).status = "perfect" ∨
      (calculateFitStatus u c f).status = "tight" ∨
      (calculateFitStatus u c f).status = "loose") ∧
    (calculateFitStatus u c f).status ≠ "good" := by
  rw [calculateFitStatus]
  unfold calculateFitStatusCfg
  dsimp only
  split_ifs with h1 h2 h3
  · exact ⟨Or.inl rfl, by simp⟩
  · exact ⟨Or.inr (Or.inl rfl), by simp⟩
  · exact ⟨Or.inr (Or.inr rfl), by simp⟩
  · exact absurd ⟨le_of_not_lt h2, le_of_not_lt h3⟩ h1

/-- C4: the recognized fabric types are exactly rigid, normal and
stretchy; any other string resolves to the normal band without error,
so classifying with it equals classifying with "normal". -/
theorem C4_unrecognized_fabric_normal :
    getFabricConfig "rigid" = rigidConfig ∧
    getFabricConfig "normal" = normalConfig ∧
    getFabricConfig "stretchy" = stretchyConfig ∧
    (∀ f : String, f ≠ "rigid" → f ≠ "normal" → f ≠ "stretchy" →
      getFabricConfig f = normalConfig ∧
      ∀ u c : ℚ, calculateFitStatus u c f = calculateFitStatus u c "normal") := by
  refine ⟨rfl, rfl, rfl, ?_⟩
  intro f h1 h2 h3
  have e1 : (f == "rigid") = false := beq_eq_false_iff_ne.mpr h1
  have e2 : (f == "normal") = false := beq_eq_false_iff_ne.mpr h2
  have e3 : (f == "stretchy") = false := beq_eq_false_iff_ne.mpr h3
  have hcfg : getFabricConfig f = normalConfig := by
    rw [getFabricConfig, FABRIC_EASE_CONFIGS]
    simp [List.lookup, e1, e2, e3]
  exact ⟨hcfg, fun u c => by
    rw [calculateFitStatus, calculateFitStatus, hcfg,
      show getFabricConfig "normal" = normalConfig from rfl]⟩

/-- Witness for C4 at the unrecognized fabric type "denim". -/
theorem C4_unrecognized_fabric_normal_witness :
    getFabricConfig "denim" = normalConfig ∧
    calculateFitStatus 90 91 "denim" = calculateFitStatus 90 91 "normal" := by
  have h := C4_unrecognized_fabric_normal.2.2.2 "denim"
    (by decide) (by decide) (by decide)
  exact ⟨h.1, h.2 90 91⟩

/-- For the four capitalized category labels, the lowercased substring
tests of `deriveActualConfidence` recognize exactly the matching label. -/
theorem status_includes (s : String)
    (h : s = "Perfect" ∨ s = "Good" ∨ s = "Tight" ∨ s = "Loose") :
    (jsIncludes (jsToLower s) "tight" = true ↔ s = "Tight") ∧
    (jsIncludes (jsToLower s) "loose" = true ↔ s = "Loose") ∧
    (jsIncludes (jsToLower s) "perfect" = true ↔ s = "Perfect") := by
  rcases h with h | h | h | h <;> subst h <;>
    exact ⟨by decide, by decide, by decide⟩

/-- C2: for every non-empty comparison list whose statuses are the four
capitalized category labels, the derived confidence is "Tight" whenever
some status is "Tight"; otherwise "Loose" whenever some status is
"Loose"; otherwise "Perfect" exactly when all statuses are "Perfect";
and "Good" in every remaining case. -/
theorem C2_priority_rule (l : List MeasurementComparison) (fb : String)
    (hne : l ≠ [])
    (hcl : ∀ m ∈ l, m.status = "Perfect" ∨ m.status = "Good" ∨
      m.status = "Tight" ∨ m.status = "Loose") :
    deriveActualConfidence l fb =
      if ∃ m ∈ l, m.status = "Tight" then "Tight"
      else if ∃ m ∈ l, m.status = "Loose" then "Loose"
      else if ∀ m ∈ l, m.status = "Perfect" then "Perfect"
      else "Good" := by
  have ht : ((l.any fun m => jsIncludes (jsToLower m.status) "tight") = true) ↔
      ∃ m ∈ l, m.status = "Tight" := by
    rw [List.any_eq_true]
    exact exists_congr fun m => and_congr_right fun hm =>
      (status_includes m.status (hcl m hm)).1
  have hl : ((l.any fun m => jsIncludes (jsToLower m.status) "loose") = true) ↔
      ∃ m ∈ l, m.status = "Loose" := by
    rw [List.any_eq_true]
    exact exists_congr fun m => and_congr_right fun hm =>
      (status_includes m.status (hcl m hm)).2.1
  have hp : ((l.all fun m => jsIncludes (jsToLower m.status) "perfect") = true) ↔
      ∀ m ∈ l, m.status = "Perfect" := by
    rw [List.all_eq_true]
    exact forall_congr' fun m => imp_congr_right fun hm =>
      (status_includes m.status (hcl m hm)).2.2
  unfold deriveActualConfidence
  dsimp only
  rw [if_neg fun hh => hne (List.length_eq_zero.mp hh)]
  by_cases hT : ∃ m ∈ l, m.status = "Tight"
  · rw [if_pos (ht.mpr hT), if_pos hT]
  · rw [if_neg fun hh => hT (ht.mp hh), if_neg hT]
    by_cases hL : ∃ m ∈ l, m.status = "Loose"
    · rw [if_pos (hl.mpr hL), if_pos hL]
    · rw [if_neg fun hh => hL (hl.mp hh), if_neg hL]
      by_cases hP : ∀ m ∈ l, m.status = "Perfect"
      · rw [if_pos (hp.mpr hP), if_pos hP]
      · rw [if_neg fun hh => hP (hp.mp hh), if_neg hP]

/-- Witness for C2: nine perfect comparisons and one tight one derive
"Tight". -/
theorem C2_priority_rule_witness :
    deriveActualConfidence
      [⟨"chest", 90, 91, 1, "Perfect"⟩, ⟨"waist", 80, 81, 1, "Perfect"⟩,
        ⟨"hip", 95, 96, 1, "Perfect"⟩, ⟨"shoulder", 40, 41, 1, "Perfect"⟩,
        ⟨"armLength", 60, 61, 1, "Perfect"⟩, ⟨"legLength", 99, 100, 1, "Perfect"⟩,
        ⟨"thigh", 50, 51, 1, "Perfect"⟩, ⟨"inseam", 70, 71, 1, "Perfect"⟩,
        ⟨"height", 170, 171, 1, "Perfect"⟩, ⟨"weight", 70, 65, -5, "Tight"⟩]
      "AI" = "Tight" := by
  have h := C2_priority_rule
    [⟨"chest", 90, 91, 1, "Perfect"⟩, ⟨"waist", 80, 81, 1, "Perfect"⟩,
      ⟨"hip", 95, 96, 1, "Perfect"⟩, ⟨"shoulder", 40, 41, 1, "Perfect"⟩,
      ⟨"armLength", 60, 61, 1, "Perfect"⟩, ⟨"legLength", 99, 100, 1, "Perfect"⟩,
      ⟨"thigh", 50, 51, 1, "Perfect"⟩, ⟨"inseam", 70, 71, 1, "Perfect"⟩,
      ⟨"height", 170, 171, 1, "Perfect"⟩, ⟨"weight", 70, 65, -5, "Tight"⟩]
    "AI" (by decide) (by decide)
  rw [h]
  decide

/-- For the four lowercase classifier statuses, the capitalized label's
lowercased substring tests recognize exactly the matching status. -/
theorem status_cap_includes (s : String)
    (h : s = "perfect" ∨ s = "good" ∨ s = "tight" ∨ s = "loose") :
    (jsIncludes (jsToLower (capitalize s)) "tight" = true ↔ s = "tight") ∧
    (jsIncludes (jsToLower (capitalize s)) "loose" = true ↔ s = "loose") ∧
    (jsIncludes (jsToLower (capitalize s)) "perfect" = true ↔ s = "perfect") := by
  rcases h with h | h | h | h <;> subst h <;>
    exact ⟨by decide, by decide, by decide⟩

/-- Transport of `any`/`all` along the relation "the comparison list's
statuses are the capitalized statuses of the detail list". -/
theorem anyAll_transport (q : String → Bool) :
    ∀ (cs : List MeasurementComparison) (ds : List FitDetail),
      cs.map MeasurementComparison.status =
        ds.map (fun d => capitalize d.status) →
      ((cs.any fun m => q m.status) =
        (ds.any fun d => q (capitalize d.status))) ∧
      ((cs.all fun m => q m.status) =
        (ds.all fun d => q (capitalize d.status))) ∧
      (cs = [] ↔ ds = []) := by
  intro cs
  induction cs with
  | nil =>
    intro ds h
    cases ds with
    | nil => simp
    | cons d ds => simp at h
  | cons m cs ih =>
    intro ds h
    cases ds with
    | nil => simp at h
    | cons d ds =>
      simp only [List.map_cons, List.cons.injEq] at h
      obtain ⟨h1, h2⟩ := h
      obtain ⟨ha, hb, _⟩ := ih ds h2
      refine ⟨?_, ?_, by simp⟩
      · simp [List.any_cons, h1, ha]
      · simp [List.all_cons, h1, hb]

/-- C10: for matching non-empty status lists, the confidence from
`deriveActualConfidence` (any-tight, then any-loose, then all-perfect)
equals, up to capitalization of the first letter, the `overallFit`
value of the size-comparison view (all-perfect, then any-tight, then
any-loose). -/
theorem C10_overall_fit_agreement (comps : List MeasurementComparison)
    (dets : List FitDetail) (fb : String) (hne : dets ≠ [])
    (hmap : comps.map MeasurementComparison.status =
      dets.map fun d => capitalize d.status)
    (hcl : ∀ d ∈ dets, d.status = "perfect" ∨ d.status = "good" ∨
      d.status = "tight" ∨ d.status = "loose") :
    deriveActualConfidence comps fb = capitalize (overallFit dets) := by
  have Tt := anyAll_transport (fun s => jsIncludes (jsToLower s) "tight")
    comps dets hmap
  have Tl := anyAll_transport (fun s => jsIncludes (jsToLower s) "loose")
    comps dets hmap
  have Tp := anyAll_transport (fun s => jsIncludes (jsToLower s) "perfect")
    comps dets hmap
  have hcne : comps ≠ [] := fun hc => hne (Tt.2.2.mp hc)
  have ht : ((dets.any fun d =>
      jsIncludes (jsToLower (capitalize d.status)) "tight") = true) ↔
      ∃ d ∈ dets, d.status = "tight" := by
    rw [List.any_eq_true]
    exact exists_congr fun d => and_congr_right fun hd =>
      (status_cap_includes d.status (hcl d hd)).1
  have hlo : ((dets.any fun d =>
      jsIncludes (jsToLower (capitalize d.status)) "loose") = true) ↔
      ∃ d ∈ dets, d.status = "loose" := by
    rw [List.any_eq_true]
    exact exists_congr fun d => and_congr_right fun hd =>
      (status_cap_includes d.status (hcl d hd)).2.1
  have hpf : ((dets.all fun d =>
      jsIncludes (jsToLower (capitalize d.status)) "perfect") = true) ↔
      ∀ d ∈ dets, d.status = "perfect" := by
    rw [List.all_eq_true]
    exact forall_congr' fun d => imp_congr_right fun hd =>
      (status_cap_includes d.status (hcl d hd)).2.2
  have oT : ((dets.any fun f => f.status == "tight") = true) ↔
      ∃ d ∈ dets, d.status = "tight" := by
    rw [List.any_eq_true]
    exact exists_congr fun d => and_congr_right fun _ => beq_iff_eq
  have oL : ((dets.any fun f => f.status == "loose") = true) ↔
      ∃ d ∈ dets, d.status = "loose" := by
    rw [List.any_eq_true]
    exact exists_congr fun d => and_congr_right fun _ => beq_iff_eq
  have oP : ((dets.all fun f => f.status == "perfect") = true) ↔
      ∀ d ∈ dets, d.status = "perfect" := by
    rw [List.all_eq_true]
    exact forall_congr' fun d => imp_congr_right fun _ => beq_iff_eq
  unfold deriveActualConfidence overallFit
  dsimp only
  rw [if_neg fun hh => hcne (List.length_eq_zero.mp hh),
    if_pos (List.length_pos.mpr hne), Tt.1, Tl.1, Tp.2.1]
  by_cases hP : ∀ d ∈ dets, d.status = "perfect"
  · have hnt : ¬∃ d ∈ dets, d.status = "tight" := by
      rintro ⟨d, hd, hdt⟩
      rw [hP d hd] at hdt
      exact absurd hdt (by decide)
    have hnl : ¬∃ d ∈ dets, d.status = "loose" := by
      rintro ⟨d, hd, hdt⟩
      rw [hP d hd] at hdt
      exact absurd hdt (by decide)
    rw [if_neg fun hh => hnt (ht.mp hh), if_neg fun hh => hnl (hlo.mp hh),
      if_pos (hpf.mpr hP), if_pos (oP.mpr hP)]
    decide
  · rw [if_neg fun hh => hP (oP.mp hh)]
    by_cases hT : ∃ d ∈ dets, d.status = "tight"
    · rw [if_pos (ht.mpr hT), if_pos (oT.mpr hT)]
      decide
    · rw [if_neg fun hh => hT (ht.mp hh), if_neg fun hh => hT (oT.mp hh)]
      by_cases hL : ∃ d ∈ dets, d.status = "loose"
      · rw [if_pos (hlo.mpr hL), if_pos (oL.mpr hL)]
        decide
      · rw [if_neg fun hh => hL (hlo.mp hh), if_neg fun hh => hL (oL.mp hh)]
        have hng : ¬∀ d ∈ dets, d.status = "perfect" := hP
        rw [if_neg fun hh => hng (hpf.mp hh)]
        decide

/-- Witness for C10 at a one-element tight measurement list. -/
theorem C10_overall_fit_agreement_witness :
    deriveActualConfidence [⟨"chest", 90, 85, -5, "Tight"⟩] "AI" =
      capitalize (overallFit [⟨"chest", 90, 85, "tight"⟩]) :=
  C10_overall_fit_agreement [⟨"chest", 90, 85, -5, "Tight"⟩]
    [⟨"chest", 90, 85, "tight"⟩] "AI" (by decide) (by decide) (by decide)

/-- C7 counterexample: with an empty size chart nothing is compared, so
the derived confidence is the fallback string itself — here "High",
which is outside {Perfect, Good, Tight, Loose}. -/
theorem C7_counterexample :
    actualConfidence (fun _ => none) [] "normal" "High" = "High" ∧
    "High" ∉ (["Perfect", "Good", "Tight", "Loose"] : List String) :=
  ⟨rfl, by decide⟩

/-- C7 (amended): whenever at least one measurement comparison exists,
the derived overall confidence lies in {Perfect, Good, Tight, Loose};
with an empty comparison list the fallback is returned unchanged and
may lie outside that set. -/
theorem C7_confidence_range (l : List MeasurementComparison) (fb : String)
    (hne : l ≠ []) :
    deriveActualConfidence l fb ∈
      (["Perfect", "Good", "Tight", "Loose"] : List String) := by
  unfold deriveActualConfidence
  dsimp only
  rw [if_neg fun hh => hne (List.length_eq_zero.mp hh)]
  split_ifs <;> decide

/-- Witness for C7 (amended) at a one-element comparison list. -/
theorem C7_confidence_range_witness :
    deriveActualConfidence [⟨"chest", 90, 91, 1, "Perfect"⟩] "High" ∈
      (["Perfect", "Good", "Tight", "Loose"] : List String) :=
  C7_confidence_range [⟨"chest", 90, 91, 1, "Perfect"⟩] "High" (by decide)

/-- C8: the displayed acceptable range for a chart value c is the
integer-centimeter interval from ⌊c · 95/100⌋ to ⌈c · 105/100⌉; the
formula takes only the chart value and no fabric band. -/
theorem C8_display_range (c : ℚ) :
    fitRangeText c = (⌊c * (95 / 100)⌋, ⌈c * (105 / 100)⌉) ∧
    ((fitRangeText c).1 : ℚ) ≤ c * (95 / 100) ∧
    c * (105 / 100) ≤ ((fitRangeText c).2 : ℚ) := by
  have h95 : (0.95 : ℚ) = 95 / 100 := by norm_num
  have h105 : (1.05 : ℚ) = 105 / 100 := by norm_num
  have h1 : fitRangeText c = (⌊c * (95 / 100)⌋, ⌈c * (105 / 100)⌉) := by
    unfold fitRangeText jsFloor jsCeil
    rw [ratFloor_eq_floor, ratCeil_eq_ceil, h95, h105]
  refine ⟨h1, ?_, ?_⟩
  · rw [h1]
    exact Int.floor_le _
  · rw [h1]
    exact Int.le_ceil _

/-- A one-character pattern occurs in a string exactly when the
character occurs in it. -/
theorem jsIncludes_single (c : Char) (k : String) :
    jsIncludes k (String.mk [c]) = true ↔ c ∈ k.toList := by
  show jsIncludesAux [c] k.toList = true ↔ c ∈ k.toList
  induction k.toList with
  | nil => simp [jsIncludesAux, List.isPrefixOf]
  | cons x t ih => simp [jsIncludesAux, List.isPrefixOf, ih]

/-- Prepending a non-underscore character commutes with the regex
replacement. -/
theorem replace_cons_ne (x : Char) (l : List Char) (hx : x ≠ '_') :
    replaceUnderscoreMatches (x :: l) = x :: replaceUnderscoreMatches l := by
  cases l with
  | nil => rfl
  | cons y t => simp [replaceUnderscoreMatches, hx]

/-- C6: chart keys equal to "size" or holding a non-numeric value are
skipped rather than erroneous; keys containing an underscore are
normalized by deleting the underscore and uppercasing the character
that followed it (arm_length becomes armLength), and keys without an
underscore are used as-is. -/
theorem C6_key_normalization_and_skipping :
    (∀ (p : String → Option ℚ) (fab : String) (v : Option ℚ)
        (rest : List (String × Option ℚ)),
      buildMeasurementComparisons p (("size", v) :: rest) fab =
        buildMeasurementComparisons p rest fab) ∧
    (∀ (p : String → Option ℚ) (fab k : String)
        (rest : List (String × Option ℚ)),
      buildMeasurementComparisons p ((k, none) :: rest) fab =
        buildMeasurementComparisons p rest fab) ∧
    userKeyFor "arm_length" = "armLength" ∧
    (∀ (a : List Char) (c : Char) (b : List Char), '_' ∉ a →
      replaceUnderscoreMatches (a ++ '_' :: c :: b) =
        a ++ c.toUpper :: replaceUnderscoreMatches b) ∧
    (∀ k : String, '_' ∉ k.toList → userKeyFor k = k) := by
  refine ⟨?_, ?_, by decide, ?_, ?_⟩
  · intro p fab v rest
    simp [buildMeasurementComparisons, List.filterMap_cons]
  · intro p fab k rest
    by_cases hk : k = "size" <;>
      simp [buildMeasurementComparisons, List.filterMap_cons, hk]
  · intro a
    induction a with
    | nil =>
      intro c b _
      simp [replaceUnderscoreMatches]
    | cons x a ih =>
      intro c b h
      have hx : x ≠ '_' := fun hh => h (hh ▸ List.mem_cons_self x a)
      rw [List.cons_append, replace_cons_ne x _ hx,
        ih c b fun hh => h (List.mem_cons_of_mem x hh), List.cons_append]
  · intro k hk
    unfold userKeyFor
    rw [if_neg]
    intro hh
    exact hk ((jsIncludes_single '_' k).mp hh)

/-- Witness for C6: the normalization at arm_length and a key without
underscores. -/
theorem C6_key_normalization_witness :
    replaceUnderscoreMatches ("arm".toList ++ '_' :: 'l' :: "ength".toList) =
      "arm".toList ++ Char.toUpper 'l' ::
        replaceUnderscoreMatches "ength".toList ∧
    userKeyFor "chest" = "chest" :=
  ⟨C6_key_normalization_and_skipping.2.2.2.1 "arm".toList 'l' "ength".toList
      (by decide),
    C6_key_normalization_and_skipping.2.2.2.2 "chest" (by decide)⟩

end SizeSync
